import Mathlib

/-!
Verification of the physics rig assembly/teardown engine of
`mmd_tools/core/model.py` (build/clean, collision filter, fake-parent
resolver, bone attachment, joint placement), via a shallow embedding of
the relevant functions.  Geometric primitives supplied by the host
(vector length, matrix multiplication, matrix decomposition) are external
collaborators of the engine and are modelled as abstract parameters;
numeric values are rationals.
-/

set_option autoImplicit false

namespace MMDModel

abbrev V3 : Type := ℚ × ℚ × ℚ

/-! ### Shape size extraction — `getRigidBodySize` (model.py:36-56)

The Python function reads `bound_box[0]` and `bound_box[6]`, asserts
`mmd_type == 'RIGID_BODY'` and componentwise ordering of the two corners,
then branches on `mmd_rigid.shape`, raising `Exception('Invalid shape
type.')` on any other shape string.  It only reads the object, never
writes it.  Assertion failures and the explicit raise are both modelled
as `Except.error`. -/

structure SizeObj where
  mmd_type : String
  /-- Corner `obj.bound_box[0]`. -/
  corner0 : V3
  /-- Corner `obj.bound_box[6]`. -/
  corner6 : V3
  /-- Field `obj.mmd_rigid.shape`. -/
  shape : String
deriving Repr, DecidableEq

def getRigidBodySize (obj : SizeObj) : Except String V3 :=
  if obj.mmd_type ≠ "RIGID_BODY" then .error "AssertionError" else
  let (x0, y0, z0) := obj.corner0
  let (x1, y1, z1) := obj.corner6
  if ¬ (x1 ≥ x0 ∧ y1 ≥ y0 ∧ z1 ≥ z0) then .error "AssertionError" else
  if obj.shape = "SPHERE" then
    let radius := (z1 - z0) / 2
    .ok (radius, 0, 0)
  else if obj.shape = "BOX" then
    .ok ((x1 - x0) / 2, (y1 - y0) / 2, (z1 - z0) / 2)
  else if obj.shape = "CAPSULE" then
    let diameter := x1 - x0
    let radius := diameter / 2
    let height := |(z1 - z0) - diameter|
    .ok (radius, height, 0)
  else
    .error "Invalid shape type."

/-! ### Transform backup store (model.py:1145-1158)

`__backupTransforms` stores `location` and `rotation_euler` under the
reserved keys `__backup_location__` / `__backup_rotation_euler__`,
skipping any attribute whose key is already present.
`__restoreTransforms` writes each saved value back and deletes the key,
and is a no-op for an absent key.  An object is modelled by its two
transform fields plus the two optional backup slots; everything the
build mutates in between (`updateRigid`, `buildJoints`) writes only
`location` and `rotation_euler`, modelled by `setTransform`. -/

structure TransformObj where
  location : V3
  rotation_euler : V3
  backup_location : Option V3
  backup_rotation_euler : Option V3
deriving Repr, DecidableEq

def backupTransforms (o : TransformObj) : TransformObj :=
  let o1 :=
    if o.backup_location.isSome then o
    else { o with backup_location := some o.location }
  if o1.backup_rotation_euler.isSome then o1
  else { o1 with backup_rotation_euler := some o1.rotation_euler }

def restoreTransforms (o : TransformObj) : TransformObj :=
  let o1 :=
    match o.backup_location with
    | some v => { o with location := v, backup_location := none }
    | none => o
  match o1.backup_rotation_euler with
  | some v => { o1 with rotation_euler := v, backup_rotation_euler := none }
  | none => o1

/-- A transform write as performed by `updateRigid` (model.py:1268-1270)
and `buildJoints` (model.py:1408-1410): only `location` and
`rotation_euler` are assigned. -/
def setTransform (o : TransformObj) (t r : V3) : TransformObj :=
  { o with location := t, rotation_euler := r }

/-- The build-time mutations of one object between backup and restore: a
sequence of `setTransform` writes. -/
def applyWrites (o : TransformObj) (writes : List (V3 × V3)) : TransformObj :=
  writes.foldl (fun o p => setTransform o p.1 p.2) o

/-! ### Collision filter — the non-collision loop of `buildRigids`
(model.py:1352-1396)

Rigid bodies are bucketed by `collision_group_number`; joints are indexed
by the unordered pair (`frozenset`) of their endpoint objects, with each
indexed joint's `disable_collisions` reset to `False` first.  The nested
loop walks every ordered pair `(obj_a, obj_b)` with `obj_b` drawn from
the bucket of every group that `obj_a.collision_group_mask` marks as
ignored.  Objects are identified by a numeric id (Python compares bpy
objects by identity); `frozenset` keys are modelled by ordering the two
ids.  The host's geometry is external: `dist a b` stands for
`(obj_a.location - obj_b.location).length` and `diag x` for
`__getRigidRange` (model.py:1318-1319), the length of
`bound_box[0] - bound_box[6]`. -/

structure RigidObj where
  id : ℕ
  /-- Field `mmd_rigid.collision_group_number`. -/
  group : ℕ
  /-- Field `mmd_rigid.collision_group_mask`, a list of 16 booleans. -/
  mask : List Bool
deriving Repr, DecidableEq

/-- The `frozenset((obj_a, obj_b))` key of an object pair. -/
def pairKey (a b : ℕ) : ℕ × ℕ := if a ≤ b then (a, b) else (b, a)

/-- The mutable loop state: `nonCollisionJointTable`,
`non_collision_pairs`, and the set of joint keys whose
`disable_collisions` flag has been set to `True`. -/
structure FilterState where
  table : List (ℕ × ℕ)
  processed : List (ℕ × ℕ)
  flagged : List (ℕ × ℕ)
deriving Repr, DecidableEq

/-- The body of the inner loop of `buildRigids` for one ordered pair
`(a, b)` (model.py:1379-1391). -/
def processPair (scale : ℚ) (dist : ℕ → ℕ → ℚ) (diag : ℕ → ℚ)
    (hasJoint : ℕ × ℕ → Bool) (st : FilterState) (a b : RigidObj) : FilterState :=
  if a.id = b.id then st
  else
    let key := pairKey a.id b.id
    if key ∈ st.processed then st
    else if hasJoint key then
      { st with flagged := key :: st.flagged, processed := key :: st.processed }
    else if dist a.id b.id < scale * (diag a.id + diag b.id) * (1/2) then
      { st with table := (a.id, b.id) :: st.table, processed := key :: st.processed }
    else
      { st with processed := key :: st.processed }

/-- The loop over `enumerate(obj_a.collision_group_mask)` for one
`obj_a`, starting at mask index `n`; `objs.filter (group = n)` is the
bucket `rigid_object_groups[n]` in original order. -/
def maskLoop (scale : ℚ) (dist : ℕ → ℕ → ℚ) (diag : ℕ → ℚ)
    (hasJoint : ℕ × ℕ → Bool) (objs : List RigidObj) (a : RigidObj) :
    ℕ → List Bool → FilterState → FilterState
  | _, [], st => st
  | n, ignore :: rest, st =>
    let st1 :=
      if ignore then
        (objs.filter (fun b => b.group = n)).foldl
          (fun st b => processPair scale dist diag hasJoint st a b) st
      else st
    maskLoop scale dist diag hasJoint objs a (n + 1) rest st1

/-- The whole pair-filtering loop of `buildRigids`, from the initial
empty state (the table and processed set start empty; every indexed
joint's flag was just reset to `False`). -/
def buildRigidsFilter (scale : ℚ) (dist : ℕ → ℕ → ℚ) (diag : ℕ → ℚ)
    (hasJoint : ℕ × ℕ → Bool) (objs : List RigidObj) : FilterState :=
  objs.foldl (fun st a => maskLoop scale dist diag hasJoint objs a 0 a.mask st)
    ⟨[], [], []⟩

/-! ### Track-target proxy ownership — `updateRigid` (model.py:1279-1314)

For a DYNAMIC / DYNAMIC_BONE body whose target bone is resolved,
`updateRigid` either creates the bone's `mmd_bonetrack` proxy and
records the body in `__empty_parent_map` (no proxy yet), or compares
`rb.mass > ori_rb.mass` against the recorded owner and transfers
ownership only on strict excess.  `updateRigid` returns early when the
body has no `rigid_body` binding, so every processed body carries a
mass. -/

structure DynBody where
  id : ℕ
  /-- Field `rigid_body.mass`. -/
  mass : ℚ
deriving Repr, DecidableEq

/-- One body's effect on the proxy-ownership slot of its target bone:
`none` means the bone has no `mmd_tools_rigid_track` constraint yet. -/
def trackStep : Option DynBody → DynBody → Option DynBody
  | none, b => some b
  | some o, b => if o.mass < b.mass then some b else some o

/-- Processing a build-order sequence of DYNAMIC bodies that target the
same bone. -/
def trackOwner (bodies : List DynBody) : Option DynBody :=
  bodies.foldl trackStep none

/-! ### Fake-parent resolver — `__preBuild` (model.py:1160-1199)

`no_parents` collects, in rigid-body order, the bodies whose
`mmd_rigid.type` is DYNAMIC or DYNAMIC_BONE and whose parent relation
resolves no bone (`relation.target is None or relation.subtarget == ''`;
the append sits in the dynamic-type branch).  The joint loop then claims
each orphan for the first joint pairing it with a non-orphan.  Mode
constants: STATIC = 0, DYNAMIC = 1, DYNAMIC_BONE = 2 (fixed by the
tuple indexing `('COPY_TRANSFORMS', 'COPY_ROTATION')[rigid_type-1]` at
model.py:1294). -/

structure PreObj where
  id : ℕ
  /-- Value `int(mmd_rigid.type)`. -/
  rtype : ℕ
  /-- Whether `relation.target is not None`. -/
  hasArm : Bool
  /-- Field `relation.subtarget`. -/
  subtarget : String
deriving Repr, DecidableEq

/-- Whether `__preBuild` appends this body to `no_parents`. -/
def isNoParent (o : PreObj) : Bool :=
  (o.rtype = 1 || o.rtype = 2) && !(o.hasArm && o.subtarget ≠ "")

/-- The `no_parents` list built by the rigid-body loop. -/
def noParents (objs : List PreObj) : List PreObj :=
  objs.filter isNoParent

/-- State of the joint loop: the flattened `__fake_parent_map` as
`(anchor id, fake-child id)` entries, and the `parented` list. -/
structure FakeParentState where
  fmap : List (ℕ × ℕ)
  parented : List ℕ
deriving Repr, DecidableEq

/-- One joint's effect (model.py:1186-1199); `j = some (o1, o2)` gives
the endpoint ids of `rigid_body_constraint.object1/object2`, `none` a
joint with no constraint (skipped).  `noP` is the set of orphan ids. -/
def fakeParentStep (noP : List ℕ) (st : FakeParentState) (j : Option (ℕ × ℕ)) :
    FakeParentState :=
  match j with
  | none => st
  | some (o1, o2) =>
    if o2 ∈ noP then
      if o1 ∉ noP ∧ o2 ∉ st.parented then
        ⟨(o1, o2) :: st.fmap, o2 :: st.parented⟩
      else st
    else if o1 ∈ noP then
      if o1 ∉ st.parented then ⟨(o2, o1) :: st.fmap, o1 :: st.parented⟩ else st
    else st

/-- The whole joint loop of `__preBuild`, from the empty map. -/
def fakeParentMap (noP : List ℕ) (joints : List (Option (ℕ × ℕ))) : FakeParentState :=
  joints.foldl (fakeParentStep noP) ⟨[], []⟩

/-! ### Joint placement — `buildJoints` (model.py:1398-1410)

Matrices and their decomposition are host primitives (`mathutils`), kept
abstract: `mul` is matrix multiplication, `dT` the translation part of
`Matrix.decompose`, `dR m mode` the rotation part converted by
`to_euler(rotation_mode)`.  `mmap` is `__rigid_body_matrix_map`, keyed
by object id. -/

structure JointObj (M : Type) where
  id : ℕ
  /-- The endpoint ids of `rigid_body_constraint`; `none` when the joint has
  no live constraint (`rbc is None`) -/
  rbc : Option (ℕ × ℕ)
  matrix_local : M
  location : V3
  rotation_euler : V3
  rotation_mode : String
deriving Repr, DecidableEq

/-- The loop body of `buildJoints` for one joint. -/
def buildJointStep {M : Type} (mul : M → M → M) (dT : M → V3)
    (dR : M → String → V3) (mmap : ℕ → Option M) (j : JointObj M) : JointObj M :=
  match j.rbc with
  | none => j
  | some (o1, o2) =>
    match (mmap o1).or (mmap o2) with
    | none => j
    | some m =>
      { j with
        location := dT (mul m j.matrix_local),
        rotation_euler := dR (mul m j.matrix_local) j.rotation_mode }

/-- Function `buildJoints` over the whole joint list. -/
def buildJoints {M : Type} (mul : M → M → M) (dT : M → V3)
    (dR : M → String → V3) (mmap : ℕ → Option M) (joints : List (JointObj M)) :
    List (JointObj M) :=
  joints.map (buildJointStep mul dT dR mmap)

/-- Invariant of the `__preBuild` joint loop: the fake-child column of
the map is duplicate-free, every fake child is recorded in `parented`,
and every entry pairs a non-orphan anchor with an orphan child. -/
def FPInv (noP : List ℕ) (st : FakeParentState) : Prop :=
  (st.fmap.map Prod.snd).Nodup ∧
  (∀ p : ℕ × ℕ, p ∈ st.fmap → p.2 ∈ st.parented) ∧
  (∀ p : ℕ × ℕ, p ∈ st.fmap → p.2 ∈ noP ∧ p.1 ∉ noP)

/-! ## Helper lemmas -/

theorem applyWrites_backup_location (writes : List (V3 × V3)) :
    ∀ o : TransformObj, (applyWrites o writes).backup_location = o.backup_location := by
  induction writes with
  | nil => intro o; rfl
  | cons w ws ih => intro o; simpa [applyWrites, setTransform] using ih (setTransform o w.1 w.2)

theorem applyWrites_backup_rotation (writes : List (V3 × V3)) :
    ∀ o : TransformObj,
      (applyWrites o writes).backup_rotation_euler = o.backup_rotation_euler := by
  induction writes with
  | nil => intro o; rfl
  | cons w ws ih => intro o; simpa [applyWrites, setTransform] using ih (setTransform o w.1 w.2)

theorem restoreTransforms_of_some (o : TransformObj) (l r : V3)
    (hl : o.backup_location = some l) (hr : o.backup_rotation_euler = some r) :
    restoreTransforms o =
      { location := l, rotation_euler := r,
        backup_location := none, backup_rotation_euler := none } := by
  simp [restoreTransforms, hl, hr]

theorem backupTransforms_of_none (o : TransformObj)
    (hl : o.backup_location = none) (hr : o.backup_rotation_euler = none) :
    backupTransforms o =
      { o with backup_location := some o.location,
               backup_rotation_euler := some o.rotation_euler } := by
  simp [backupTransforms, hl, hr]

/-! ## Claims -/

/-- Claim C7: The transform backup operation is idempotent: it saves each of
`location` / `rotation_euler` iff no backup is already stored for that
attribute, never overwrites an existing saved value (`Option.getD`
selects the pre-existing backup when there is one), and leaves the
transform fields themselves untouched. -/
theorem backupTransforms_idempotent (o : TransformObj) :
    backupTransforms (backupTransforms o) = backupTransforms o ∧
    (backupTransforms o).backup_location = some (o.backup_location.getD o.location) ∧
    (backupTransforms o).backup_rotation_euler =
      some (o.backup_rotation_euler.getD o.rotation_euler) ∧
    (backupTransforms o).location = o.location ∧
    (backupTransforms o).rotation_euler = o.rotation_euler := by
  rcases o with ⟨loc, rot, bl, br⟩
  cases bl <;> cases br <;> simp [backupTransforms]

/-- Claim C1: One build/clean cycle on any rigid body or joint: the build
backs the object up (`__backupTransforms`) before its first mutation,
then performs an arbitrary sequence of `location` / `rotation_euler`
writes (`updateRigid`, `buildJoints`); `clean`'s `__restoreTransforms`
writes back the saved values and removes the backup, so the object's
transform fields return bit-for-bit to their pre-build values.  The
hypotheses say the object carries no leftover backup before the build,
which is the UNBUILT-state invariant. -/
theorem clean_build_restores_transforms (o : TransformObj) (writes : List (V3 × V3))
    (hl : o.backup_location = none) (hr : o.backup_rotation_euler = none) :
    restoreTransforms (applyWrites (backupTransforms o) writes) = o := by
  have hb := backupTransforms_of_none o hl hr
  have h1 : (applyWrites (backupTransforms o) writes).backup_location = some o.location := by
    rw [applyWrites_backup_location, hb]
  have h2 : (applyWrites (backupTransforms o) writes).backup_rotation_euler =
      some o.rotation_euler := by
    rw [applyWrites_backup_rotation, hb]
  rw [restoreTransforms_of_some _ _ _ h1 h2]
  cases o
  simp_all

/-- Witness for claim C1, at a concrete object and write sequence. -/
theorem clean_build_restores_transforms_witness :
    (⟨(1, 2, 3), (4, 5, 6), none, none⟩ : TransformObj).backup_location = none ∧
    restoreTransforms
        (applyWrites (backupTransforms ⟨(1, 2, 3), (4, 5, 6), none, none⟩)
          [((7, 7, 7), (8, 8, 8)), ((9, 9, 9), (0, 0, 0))]) =
      ⟨(1, 2, 3), (4, 5, 6), none, none⟩ :=
  ⟨rfl, clean_build_restores_transforms ⟨(1, 2, 3), (4, 5, 6), none, none⟩
    [((7, 7, 7), (8, 8, 8)), ((9, 9, 9), (0, 0, 0))] rfl rfl⟩

/-- Claim C5: Shape size extraction computes, for every bounding box with
`corner6` componentwise `≥ corner0`: CAPSULE → radius = half the
x-extent, height = |z-extent − x-diameter|; SPHERE → radius = half the
z-extent; BOX → the three half-extents; and in particular the box
corner0 = (−1,−1,−1), corner6 = (1,1,3) yields CAPSULE (1, 2, 0),
SPHERE (2, 0, 0), BOX (1, 1, 2). -/
theorem getRigidBodySize_formulas (x0 y0 z0 x1 y1 z1 : ℚ)
    (hx : x1 ≥ x0) (hy : y1 ≥ y0) (hz : z1 ≥ z0) :
    getRigidBodySize ⟨"RIGID_BODY", (x0, y0, z0), (x1, y1, z1), "CAPSULE"⟩ =
      .ok ((x1 - x0) / 2, |(z1 - z0) - (x1 - x0)|, 0) ∧
    getRigidBodySize ⟨"RIGID_BODY", (x0, y0, z0), (x1, y1, z1), "SPHERE"⟩ =
      .ok ((z1 - z0) / 2, 0, 0) ∧
    getRigidBodySize ⟨"RIGID_BODY", (x0, y0, z0), (x1, y1, z1), "BOX"⟩ =
      .ok ((x1 - x0) / 2, (y1 - y0) / 2, (z1 - z0) / 2) ∧
    getRigidBodySize ⟨"RIGID_BODY", (-1, -1, -1), (1, 1, 3), "CAPSULE"⟩ = .ok (1, 2, 0) ∧
    getRigidBodySize ⟨"RIGID_BODY", (-1, -1, -1), (1, 1, 3), "SPHERE"⟩ = .ok (2, 0, 0) ∧
    getRigidBodySize ⟨"RIGID_BODY", (-1, -1, -1), (1, 1, 3), "BOX"⟩ = .ok (1, 1, 2) := by
  refine ⟨?_, ?_, ?_, ?_, ?_, ?_⟩ <;>
    · simp [getRigidBodySize, hx, hy, hz, String.reduceEq]
      try norm_num [abs_of_nonneg]

/-- Witness for claim C5: the claim's own example box discharges the ordering
hypotheses. -/
theorem getRigidBodySize_formulas_witness :
    ((1 : ℚ) ≥ -1 ∧ (3 : ℚ) ≥ -1) ∧
    getRigidBodySize ⟨"RIGID_BODY", (-1, -1, -1), (1, 1, 3), "CAPSULE"⟩ = .ok (1, 2, 0) ∧
    getRigidBodySize ⟨"RIGID_BODY", (-1, -1, -1), (1, 1, 3), "SPHERE"⟩ = .ok (2, 0, 0) ∧
    getRigidBodySize ⟨"RIGID_BODY", (-1, -1, -1), (1, 1, 3), "BOX"⟩ = .ok (1, 1, 2) :=
  ⟨⟨by decide, by decide⟩,
    (getRigidBodySize_formulas (-1) (-1) (-1) 1 1 3 (by decide) (by decide) (by decide)).2.2.2⟩

/-- Claim C6: On a well-formed rigid body (type tag `RIGID_BODY`, ordered
bounding-box corners), size extraction raises exactly when the
configured shape is none of SPHERE / BOX / CAPSULE; the function only
reads the object, so it never modifies it. -/
theorem getRigidBodySize_raises_iff (x0 y0 z0 x1 y1 z1 : ℚ) (shape : String)
    (hx : x1 ≥ x0) (hy : y1 ≥ y0) (hz : z1 ≥ z0) :
    (∃ e, getRigidBodySize ⟨"RIGID_BODY", (x0, y0, z0), (x1, y1, z1), shape⟩ =
        .error e) ↔
      ¬(shape = "SPHERE" ∨ shape = "BOX" ∨ shape = "CAPSULE") := by
  by_cases h1 : shape = "SPHERE"
  · subst h1; simp [getRigidBodySize, hx, hy, hz, String.reduceEq]
  · by_cases h2 : shape = "BOX"
    · subst h2; simp [getRigidBodySize, hx, hy, hz, String.reduceEq]
    · by_cases h3 : shape = "CAPSULE"
      · subst h3; simp [getRigidBodySize, hx, hy, hz, String.reduceEq]
      · simp [getRigidBodySize, hx, hy, hz, h1, h2, h3, String.reduceEq]

/-- Witness for claim C6: shape `"MESH"` raises on the example box. -/
theorem getRigidBodySize_raises_iff_witness :
    ((1 : ℚ) ≥ -1 ∧ ¬(("MESH" = "SPHERE") ∨ ("MESH" = "BOX") ∨ ("MESH" = "CAPSULE"))) ∧
    (∃ e, getRigidBodySize ⟨"RIGID_BODY", (-1, -1, -1), (1, 1, 3), "MESH"⟩ = .error e) :=
  ⟨⟨by decide, by decide⟩,
    (getRigidBodySize_raises_iff (-1) (-1) (-1) 1 1 3 "MESH"
      (by decide) (by decide) (by decide)).mpr (by decide)⟩

/-- Claim C10: SPHERE size extraction depends only on the z-extent: two
boxes with equal z-extent give identical SPHERE results whatever their
x/y extents; the SPHERE result is exactly (radius, 0, 0) with radius
half the z-extent, and the CAPSULE result's unused third component is
exactly 0. -/
theorem getRigidBodySize_sphere_z_only (x0 y0 z0 x1 y1 z1 u0 v0 w0 u1 v1 w1 : ℚ)
    (hx : x1 ≥ x0) (hy : y1 ≥ y0) (hz : z1 ≥ z0)
    (hu : u1 ≥ u0) (hv : v1 ≥ v0) (hw : w1 ≥ w0)
    (hzz : z1 - z0 = w1 - w0) :
    getRigidBodySize ⟨"RIGID_BODY", (x0, y0, z0), (x1, y1, z1), "SPHERE"⟩ =
      getRigidBodySize ⟨"RIGID_BODY", (u0, v0, w0), (u1, v1, w1), "SPHERE"⟩ ∧
    getRigidBodySize ⟨"RIGID_BODY", (x0, y0, z0), (x1, y1, z1), "SPHERE"⟩ =
      .ok ((z1 - z0) / 2, 0, 0) ∧
    getRigidBodySize ⟨"RIGID_BODY", (x0, y0, z0), (x1, y1, z1), "CAPSULE"⟩ =
      .ok ((x1 - x0) / 2, |(z1 - z0) - (x1 - x0)|, 0) := by
  refine ⟨?_, ?_, ?_⟩ <;>
    simp [getRigidBodySize, hx, hy, hz, hu, hv, hw, hzz, String.reduceEq]

/-- Witness for claim C10: two boxes with the same z-extent but different x/y
extents. -/
theorem getRigidBodySize_sphere_z_only_witness :
    ((2 : ℚ) ≥ 0 ∧ (5 : ℚ) ≥ 1 ∧ (4 : ℚ) - 0 = 4 - 0) ∧
    getRigidBodySize ⟨"RIGID_BODY", (0, 0, 0), (2, 2, 4), "SPHERE"⟩ =
      getRigidBodySize ⟨"RIGID_BODY", (1, 0, 0), (5, 3, 4), "SPHERE"⟩ :=
  ⟨⟨by decide, by decide, rfl⟩,
    (getRigidBodySize_sphere_z_only 0 0 0 2 2 4 1 0 0 5 3 4
      (by decide) (by decide) (by decide) (by decide) (by decide) (by decide) rfl).1⟩

/-- Claim C4: Track-target proxy ownership: when a DYNAMIC / DYNAMIC_BONE
body reaches a bone that already has a proxy, ownership transfers to it
iff its mass strictly exceeds the current owner's (`rb.mass >
ori_rb.mass`); on an exact tie nothing happens (the current owner —
hence build order — wins); and with masses 1.0 and 2.0 the mass-2.0 body
owns the proxy after processing in either order. -/
theorem updateRigid_track_ownership (o b b1 b2 : DynBody)
    (hm1 : b1.mass = 1) (hm2 : b2.mass = 2) :
    (o.mass < b.mass → trackStep (some o) b = some b) ∧
    (¬o.mass < b.mass → trackStep (some o) b = some o) ∧
    (b.mass = o.mass → trackStep (some o) b = some o) ∧
    trackOwner [b1, b2] = some b2 ∧
    trackOwner [b2, b1] = some b2 := by
  refine ⟨fun h => ?_, fun h => ?_, fun h => ?_, ?_, ?_⟩
  · simp [trackStep, h]
  · simp [trackStep, h]
  · simp [trackStep, h]
  · simp [trackOwner, trackStep, hm1, hm2]
  · have : ¬ b2.mass < b1.mass := by rw [hm1, hm2]; norm_num
    simp [trackOwner, trackStep, this]

/-- Witness for claim C4: masses 1.0 and 2.0 in both build orders. -/
theorem updateRigid_track_ownership_witness :
    ((DynBody.mk 10 1).mass = 1 ∧ (DynBody.mk 20 2).mass = 2) ∧
    trackOwner [⟨10, 1⟩, ⟨20, 2⟩] = some ⟨20, 2⟩ ∧
    trackOwner [⟨20, 2⟩, ⟨10, 1⟩] = some ⟨20, 2⟩ :=
  ⟨⟨rfl, rfl⟩,
    (updateRigid_track_ownership ⟨0, 0⟩ ⟨0, 0⟩ ⟨10, 1⟩ ⟨20, 2⟩ rfl rfl).2.2.2⟩

/-- Claim C9: Joint placement: for a joint with a live constraint the
engine uses the bone-relative matrix of endpoint 1, falling back to
endpoint 2 only when endpoint 1 has none; when neither endpoint resolved
a matrix (or there is no constraint) the joint is left completely
unchanged, and otherwise its location / rotation are set to the
decomposition of `m × matrix_local` (all other fields untouched). -/
theorem buildJoints_placement {M : Type} (mul : M → M → M) (dT : M → V3)
    (dR : M → String → V3) (mmap : ℕ → Option M) (j : JointObj M) :
    (j.rbc = none → buildJointStep mul dT dR mmap j = j) ∧
    (∀ o1 o2, j.rbc = some (o1, o2) → mmap o1 = none → mmap o2 = none →
      buildJointStep mul dT dR mmap j = j) ∧
    (∀ o1 o2 m, j.rbc = some (o1, o2) → mmap o1 = some m →
      buildJointStep mul dT dR mmap j =
        { j with location := dT (mul m j.matrix_local),
                 rotation_euler := dR (mul m j.matrix_local) j.rotation_mode }) ∧
    (∀ o1 o2 m, j.rbc = some (o1, o2) → mmap o1 = none → mmap o2 = some m →
      buildJointStep mul dT dR mmap j =
        { j with location := dT (mul m j.matrix_local),
                 rotation_euler := dR (mul m j.matrix_local) j.rotation_mode }) := by
  refine ⟨fun h => ?_, fun o1 o2 h h1 h2 => ?_, fun o1 o2 m h h1 => ?_,
    fun o1 o2 m h h1 h2 => ?_⟩ <;>
    simp [buildJointStep, h, Option.or] <;> simp_all [Option.or]

/-- Witness for claim C9: a concrete joint whose endpoint 1 has no matrix and
endpoint 2 does. -/
theorem buildJoints_placement_witness :
    ((⟨0, some (1, 2), 5, (0, 0, 0), (0, 0, 0), "XYZ"⟩ : JointObj ℕ).rbc = some (1, 2)) ∧
    buildJointStep (fun a _ => a) (fun _ => (1, 2, 3)) (fun _ _ => (4, 5, 6))
        (fun n => if n = 2 then some 3 else none)
        ⟨0, some (1, 2), 5, (0, 0, 0), (0, 0, 0), "XYZ"⟩ =
      ⟨0, some (1, 2), 5, (1, 2, 3), (4, 5, 6), "XYZ"⟩ :=
  ⟨rfl,
    (buildJoints_placement (fun a _ => a) (fun _ => (1, 2, 3))
      (fun _ _ => (4, 5, 6)) (fun n => if n = 2 then some 3 else none)
      ⟨0, some (1, 2), 5, (0, 0, 0), (0, 0, 0), "XYZ"⟩).2.2.2 1 2 3 rfl rfl rfl⟩

/-! ## Collision filter lemmas -/

theorem pairKey_comm (a b : ℕ) : pairKey a b = pairKey b a := by
  unfold pairKey
  rcases le_total a b with h | h
  · rcases lt_or_eq_of_le h with h1 | h1
    · rw [if_pos h, if_neg (by omega)]
    · subst h1; simp
  · rcases lt_or_eq_of_le h with h1 | h1
    · rw [if_neg (by omega), if_pos h]
    · subst h1; simp

theorem processPair_of_mem_processed (scale : ℚ) (dist : ℕ → ℕ → ℚ) (diag : ℕ → ℚ)
    (hasJoint : ℕ × ℕ → Bool) (st : FilterState) (a b : RigidObj)
    (h : pairKey a.id b.id ∈ st.processed) :
    processPair scale dist diag hasJoint st a b = st := by
  unfold processPair
  by_cases he : a.id = b.id
  · rw [if_pos he]
  · rw [if_neg he, if_pos h]

theorem processed_subset_processPair (scale : ℚ) (dist : ℕ → ℕ → ℚ) (diag : ℕ → ℚ)
    (hasJoint : ℕ × ℕ → Bool) (st : FilterState) (a b : RigidObj) :
    st.processed ⊆ (processPair scale dist diag hasJoint st a b).processed := by
  unfold processPair
  by_cases he : a.id = b.id
  · rw [if_pos he]
    exact List.Subset.refl _
  · rw [if_neg he]
    by_cases hm : pairKey a.id b.id ∈ st.processed
    · rw [if_pos hm]
      exact List.Subset.refl _
    · rw [if_neg hm]
      by_cases hj : hasJoint (pairKey a.id b.id) = true
      · rw [if_pos hj]
        exact List.subset_cons_of_subset _ (List.Subset.refl _)
      · rw [if_neg hj]
        by_cases hd : dist a.id b.id < scale * (diag a.id + diag b.id) * (1 / 2)
        · rw [if_pos hd]
          exact List.subset_cons_of_subset _ (List.Subset.refl _)
        · rw [if_neg hd]
          exact List.subset_cons_of_subset _ (List.Subset.refl _)

theorem mem_processed_processPair (scale : ℚ) (dist : ℕ → ℕ → ℚ) (diag : ℕ → ℚ)
    (hasJoint : ℕ × ℕ → Bool) (st : FilterState) (a b : RigidObj) (hne : a.id ≠ b.id) :
    pairKey a.id b.id ∈ (processPair scale dist diag hasJoint st a b).processed := by
  unfold processPair
  rw [if_neg hne]
  by_cases h : pairKey a.id b.id ∈ st.processed
  · rw [if_pos h]; exact h
  · rw [if_neg h]; split_ifs <;> exact List.mem_cons_self _ _

theorem foldl_preserve {α β : Type} (P : α → Prop) (f : α → β → α)
    (hf : ∀ st b, P st → P (f st b)) :
    ∀ (l : List β) (st : α), P st → P (l.foldl f st) := by
  intro l
  induction l with
  | nil => intro st h; exact h
  | cons x xs ih => intro st h; exact ih (f st x) (hf st x h)

theorem maskLoop_preserve (scale : ℚ) (dist : ℕ → ℕ → ℚ) (diag : ℕ → ℚ)
    (hasJoint : ℕ × ℕ → Bool) (objs : List RigidObj) (a : RigidObj)
    (P : FilterState → Prop)
    (hstep : ∀ st b, P st → P (processPair scale dist diag hasJoint st a b)) :
    ∀ (m : List Bool) (n : ℕ) (st : FilterState),
      P st → P (maskLoop scale dist diag hasJoint objs a n m st) := by
  intro m
  induction m with
  | nil => intro n st h; exact h
  | cons ig rest ih =>
    intro n st h
    unfold maskLoop
    apply ih
    by_cases hig : ig = true
    · rw [if_pos hig]
      exact foldl_preserve P _ (fun st b hp => hstep st b hp) _ st h
    · rw [if_neg hig]; exact h

theorem buildRigidsFilter_preserve (scale : ℚ) (dist : ℕ → ℕ → ℚ) (diag : ℕ → ℚ)
    (hasJoint : ℕ × ℕ → Bool) (objs : List RigidObj) (P : FilterState → Prop)
    (hstep : ∀ st a b, P st → P (processPair scale dist diag hasJoint st a b))
    (hinit : P ⟨[], [], []⟩) :
    P (buildRigidsFilter scale dist diag hasJoint objs) := by
  unfold buildRigidsFilter
  exact foldl_preserve P _
    (fun st a hp => maskLoop_preserve scale dist diag hasJoint objs a P
      (fun st b hb => hstep st a b hb) a.mask 0 st hp) objs _ hinit

/-- Claim C2: The implicit branch of the collision filter: for an ordered
pair of distinct bodies whose unordered key is not yet processed and has
no indexed joint, the pair is appended to `nonCollisionJointTable` —
from which `__createNonCollisionConstraint` materializes exactly one
NonCollisionProxy per entry — iff the distance between the two bodies'
centers is strictly below `scale × (diag(A) + diag(B)) / 2`. -/
theorem processPair_implicit_iff (scale : ℚ) (dist : ℕ → ℕ → ℚ) (diag : ℕ → ℚ)
    (hasJoint : ℕ × ℕ → Bool) (st : FilterState) (a b : RigidObj)
    (hne : a.id ≠ b.id)
    (hproc : pairKey a.id b.id ∉ st.processed)
    (hjoint : hasJoint (pairKey a.id b.id) = false)
    (htab : (a.id, b.id) ∉ st.table) :
    (a.id, b.id) ∈ (processPair scale dist diag hasJoint st a b).table ↔
      dist a.id b.id < scale * (diag a.id + diag b.id) / 2 := by
  unfold processPair
  rw [if_neg hne, if_neg hproc, hjoint]
  simp only [Bool.false_eq_true, if_false]
  have h2 : scale * (diag a.id + diag b.id) * (1 / 2) =
      scale * (diag a.id + diag b.id) / 2 := by ring
  by_cases hd : dist a.id b.id < scale * (diag a.id + diag b.id) * (1 / 2)
  · rw [if_pos hd, h2] at *
    exact iff_of_true (List.mem_cons_self _ _) hd
  · rw [if_neg hd, h2] at *
    exact iff_of_false htab hd

/-- Witness for claim C2: scale 1.5, both diagonals 2.0, distance 2.9, fresh
state — the spec's own example numbers. -/
theorem processPair_implicit_iff_witness :
    ((RigidObj.mk 0 0 []).id ≠ (RigidObj.mk 1 0 []).id ∧
      pairKey 0 1 ∉ (FilterState.mk [] [] []).processed ∧
      (fun _ : ℕ × ℕ => false) (pairKey 0 1) = false ∧
      (0, 1) ∉ (FilterState.mk [] [] []).table) ∧
    ((0, 1) ∈ (processPair (mkRat 3 2) (fun _ _ => mkRat 29 10) (fun _ => 2)
        (fun _ => false) ⟨[], [], []⟩ ⟨0, 0, []⟩ ⟨1, 0, []⟩).table ↔
      mkRat 29 10 < mkRat 3 2 * ((2 : ℚ) + 2) / 2) :=
  ⟨⟨by decide, by decide, rfl, by decide⟩,
    processPair_implicit_iff (mkRat 3 2) (fun _ _ => mkRat 29 10) (fun _ => 2)
      (fun _ => false) ⟨[], [], []⟩ ⟨0, 0, []⟩ ⟨1, 0, []⟩
      (by decide) (by decide) rfl (by decide)⟩

theorem mem_processed_filterFold (scale : ℚ) (dist : ℕ → ℕ → ℚ) (diag : ℕ → ℚ)
    (hasJoint : ℕ × ℕ → Bool) (a B : RigidObj) (hne : a.id ≠ B.id) :
    ∀ (l : List RigidObj) (st : FilterState), B ∈ l →
      pairKey a.id B.id ∈
        (l.foldl (fun st b => processPair scale dist diag hasJoint st a b) st).processed := by
  intro l
  induction l with
  | nil => intro st h; cases h
  | cons x xs ih =>
    intro st hB
    rcases List.mem_cons.mp hB with h | h
    · subst h
      simp only [List.foldl_cons]
      exact foldl_preserve (fun s => pairKey a.id B.id ∈ s.processed) _
        (fun st b hp => processed_subset_processPair scale dist diag hasJoint st a b hp)
        xs _ (mem_processed_processPair scale dist diag hasJoint st a B hne)
    · simp only [List.foldl_cons]
      exact ih _ h

theorem mem_processed_maskLoop (scale : ℚ) (dist : ℕ → ℕ → ℚ) (diag : ℕ → ℚ)
    (hasJoint : ℕ × ℕ → Bool) (objs : List RigidObj) (a B : RigidObj)
    (hne : a.id ≠ B.id) (hB : B ∈ objs) :
    ∀ (m : List Bool) (n : ℕ) (st : FilterState) (i : ℕ),
      m.getD i false = true → n + i = B.group →
      pairKey a.id B.id ∈ (maskLoop scale dist diag hasJoint objs a n m st).processed := by
  intro m
  induction m with
  | nil =>
    intro n st i hi _
    simp [List.getD] at hi
  | cons ig rest ih =>
    intro n st i hi hn
    unfold maskLoop
    cases i with
    | zero =>
      rw [List.getD_cons_zero] at hi
      have hng : B.group = n := by omega
      rw [if_pos hi]
      exact maskLoop_preserve scale dist diag hasJoint objs a
        (fun s => pairKey a.id B.id ∈ s.processed)
        (fun st b hp => processed_subset_processPair scale dist diag hasJoint st a b hp)
        rest (n + 1) _
        (mem_processed_filterFold scale dist diag hasJoint a B hne _ st
          (List.mem_filter.mpr ⟨hB, decide_eq_true hng⟩))
    | succ i1 =>
      rw [List.getD_cons_succ] at hi
      exact ih (n + 1) _ i1 hi (by omega)

theorem mem_processed_buildRigidsFilter (scale : ℚ) (dist : ℕ → ℕ → ℚ) (diag : ℕ → ℚ)
    (hasJoint : ℕ × ℕ → Bool) (objs : List RigidObj) (A B : RigidObj)
    (hA : A ∈ objs) (hB : B ∈ objs) (hne : A.id ≠ B.id)
    (hmask : A.mask.getD B.group false = true) :
    pairKey A.id B.id ∈ (buildRigidsFilter scale dist diag hasJoint objs).processed := by
  unfold buildRigidsFilter
  suffices h : ∀ (l : List RigidObj) (st : FilterState), A ∈ l →
      pairKey A.id B.id ∈
        (l.foldl (fun st a => maskLoop scale dist diag hasJoint objs a 0 a.mask st)
          st).processed by
    exact h objs _ hA
  intro l
  induction l with
  | nil => intro st h; cases h
  | cons x xs ih =>
    intro st hx
    rcases List.mem_cons.mp hx with h | h
    · subst h
      simp only [List.foldl_cons]
      refine foldl_preserve (fun s => pairKey A.id B.id ∈ s.processed) _
        (fun st a hp => maskLoop_preserve scale dist diag hasJoint objs a
          (fun s => pairKey A.id B.id ∈ s.processed)
          (fun st b hq => processed_subset_processPair scale dist diag hasJoint st a b hq)
          a.mask 0 st hp) xs _ ?_
      exact mem_processed_maskLoop scale dist diag hasJoint objs A B hne hB
        A.mask 0 st B.group hmask (by omega)
    · simp only [List.foldl_cons]
      exact ih _ h

theorem processPair_flag_invariant (scale : ℚ) (dist : ℕ → ℕ → ℚ) (diag : ℕ → ℚ)
    (hasJoint : ℕ × ℕ → Bool) (key : ℕ × ℕ) (hj : hasJoint key = true)
    (st : FilterState) (a b : RigidObj)
    (h : key ∈ st.processed → key ∈ st.flagged) :
    key ∈ (processPair scale dist diag hasJoint st a b).processed →
      key ∈ (processPair scale dist diag hasJoint st a b).flagged := by
  unfold processPair
  by_cases he : a.id = b.id
  · rw [if_pos he]; exact h
  · rw [if_neg he]
    by_cases hm : pairKey a.id b.id ∈ st.processed
    · rw [if_pos hm]; exact h
    · rw [if_neg hm]
      by_cases hjb : hasJoint (pairKey a.id b.id) = true
      · rw [if_pos hjb]
        intro hmem
        rcases List.mem_cons.mp hmem with h1 | h1
        · exact List.mem_cons.mpr (Or.inl h1)
        · exact List.mem_cons.mpr (Or.inr (h h1))
      · rw [if_neg hjb]
        by_cases hd : dist a.id b.id < scale * (diag a.id + diag b.id) * (1 / 2)
        · rw [if_pos hd]
          intro hmem
          rcases List.mem_cons.mp hmem with h1 | h1
          · exact absurd (h1 ▸ hj) hjb
          · exact h h1
        · rw [if_neg hd]
          intro hmem
          rcases List.mem_cons.mp hmem with h1 | h1
          · exact absurd (h1 ▸ hj) hjb
          · exact h h1

theorem processPair_table_invariant (scale : ℚ) (dist : ℕ → ℕ → ℚ) (diag : ℕ → ℚ)
    (hasJoint : ℕ × ℕ → Bool) (A B : ℕ) (hj : hasJoint (pairKey A B) = true)
    (st : FilterState) (a b : RigidObj)
    (h : (A, B) ∉ st.table ∧ (B, A) ∉ st.table) :
    (A, B) ∉ (processPair scale dist diag hasJoint st a b).table ∧
      (B, A) ∉ (processPair scale dist diag hasJoint st a b).table := by
  unfold processPair
  by_cases he : a.id = b.id
  · rw [if_pos he]; exact h
  · rw [if_neg he]
    by_cases hm : pairKey a.id b.id ∈ st.processed
    · rw [if_pos hm]; exact h
    · rw [if_neg hm]
      by_cases hjb : hasJoint (pairKey a.id b.id) = true
      · rw [if_pos hjb]; exact h
      · rw [if_neg hjb]
        by_cases hd : dist a.id b.id < scale * (diag a.id + diag b.id) * (1 / 2)
        · rw [if_pos hd]
          constructor <;> intro hmem <;> rcases List.mem_cons.mp hmem with h1 | h1
          · rcases Prod.mk.injEq .. ▸ h1 with ⟨hA1, hB1⟩
            exact hjb (by rw [hA1, hB1] at hj; exact hj)
          · exact h.1 h1
          · rcases Prod.mk.injEq .. ▸ h1 with ⟨hB1, hA1⟩
            exact hjb (by rw [pairKey_comm] at hj; rw [hB1, hA1] at hj; exact hj)
          · exact h.2 h1
        · rw [if_neg hd]; exact h

/-- Claim C3: One filter run: a processed unordered pair is never
re-evaluated (running the reversed ordered pair right after is a no-op
on the state), and an indexed joint takes precedence over the implicit
proxy heuristic — whenever either body's mask ignores the other's group,
the joint's `disable_collisions` flag ends up `true` and neither
ordering of the pair is ever recorded in `nonCollisionJointTable`,
regardless of distances. -/
theorem buildRigids_pair_once_and_joint_precedence
    (scale : ℚ) (dist : ℕ → ℕ → ℚ) (diag : ℕ → ℚ) (hasJoint : ℕ × ℕ → Bool)
    (objs : List RigidObj) (A B : RigidObj) (st : FilterState)
    (hne : A.id ≠ B.id) (hA : A ∈ objs) (hB : B ∈ objs)
    (hjoint : hasJoint (pairKey A.id B.id) = true)
    (hmask : A.mask.getD B.group false = true ∨ B.mask.getD A.group false = true) :
    processPair scale dist diag hasJoint
        (processPair scale dist diag hasJoint st A B) B A =
      processPair scale dist diag hasJoint st A B ∧
    pairKey A.id B.id ∈ (buildRigidsFilter scale dist diag hasJoint objs).flagged ∧
    (A.id, B.id) ∉ (buildRigidsFilter scale dist diag hasJoint objs).table ∧
    (B.id, A.id) ∉ (buildRigidsFilter scale dist diag hasJoint objs).table := by
  have hproc : pairKey A.id B.id ∈
      (buildRigidsFilter scale dist diag hasJoint objs).processed := by
    rcases hmask with hm | hm
    · exact mem_processed_buildRigidsFilter scale dist diag hasJoint objs A B hA hB hne hm
    · rw [pairKey_comm]
      exact mem_processed_buildRigidsFilter scale dist diag hasJoint objs B A hB hA
        (Ne.symm hne) hm
  have htab := buildRigidsFilter_preserve scale dist diag hasJoint objs
    (fun s => (A.id, B.id) ∉ s.table ∧ (B.id, A.id) ∉ s.table)
    (fun st a b hp =>
      processPair_table_invariant scale dist diag hasJoint A.id B.id hjoint st a b hp)
    ⟨List.not_mem_nil _, List.not_mem_nil _⟩
  refine ⟨?_, ?_, htab.1, htab.2⟩
  · apply processPair_of_mem_processed
    rw [pairKey_comm]
    exact mem_processed_processPair scale dist diag hasJoint st A B hne
  · exact buildRigidsFilter_preserve scale dist diag hasJoint objs
      (fun s => pairKey A.id B.id ∈ s.processed → pairKey A.id B.id ∈ s.flagged)
      (fun st a b hp =>
        processPair_flag_invariant scale dist diag hasJoint _ hjoint st a b hp)
      (fun h => absurd h (List.not_mem_nil _)) hproc

/-- Witness for claim C3: two bodies joined by an indexed joint, body 0's mask
ignoring body 1's group. -/
theorem buildRigids_pair_once_and_joint_precedence_witness :
    ((RigidObj.mk 0 0 [true]).id ≠ (RigidObj.mk 1 0 []).id ∧
      RigidObj.mk 0 0 [true] ∈ [RigidObj.mk 0 0 [true], RigidObj.mk 1 0 []] ∧
      (fun p : ℕ × ℕ => decide (p = (0, 1))) (pairKey 0 1) = true ∧
      (RigidObj.mk 0 0 [true]).mask.getD (RigidObj.mk 1 0 []).group false = true) ∧
    (pairKey 0 1 ∈
      (buildRigidsFilter (mkRat 3 2) (fun _ _ => mkRat 29 10) (fun _ => 2)
        (fun p => decide (p = (0, 1)))
        [RigidObj.mk 0 0 [true], RigidObj.mk 1 0 []]).flagged ∧
    (0, 1) ∉
      (buildRigidsFilter (mkRat 3 2) (fun _ _ => mkRat 29 10) (fun _ => 2)
        (fun p => decide (p = (0, 1)))
        [RigidObj.mk 0 0 [true], RigidObj.mk 1 0 []]).table ∧
    (1, 0) ∉
      (buildRigidsFilter (mkRat 3 2) (fun _ _ => mkRat 29 10) (fun _ => 2)
        (fun p => decide (p = (0, 1)))
        [RigidObj.mk 0 0 [true], RigidObj.mk 1 0 []]).table) :=
  ⟨⟨by decide, by decide, by decide, by decide⟩,
    (buildRigids_pair_once_and_joint_precedence (mkRat 3 2) (fun _ _ => mkRat 29 10)
      (fun _ => 2) (fun p => decide (p = (0, 1)))
      [RigidObj.mk 0 0 [true], RigidObj.mk 1 0 []]
      (RigidObj.mk 0 0 [true]) (RigidObj.mk 1 0 []) ⟨[], [], []⟩
      (by decide) (by decide) (by decide) (by decide) (Or.inl (by decide))).2⟩

/-! ## Fake-parent resolver lemmas -/

theorem fakeParentStep_some (noP : List ℕ) (st : FakeParentState) (o1 o2 : ℕ) :
    fakeParentStep noP st (some (o1, o2)) =
      if o2 ∈ noP then
        if o1 ∉ noP ∧ o2 ∉ st.parented then
          ⟨(o1, o2) :: st.fmap, o2 :: st.parented⟩
        else st
      else if o1 ∈ noP then
        if o1 ∉ st.parented then ⟨(o2, o1) :: st.fmap, o1 :: st.parented⟩ else st
      else st := rfl

theorem fakeParentStep_invariant (noP : List ℕ) (st : FakeParentState)
    (j : Option (ℕ × ℕ)) (h : FPInv noP st) : FPInv noP (fakeParentStep noP st j) := by
  obtain ⟨hnd, hsub, hshape⟩ := h
  match j with
  | none => exact ⟨hnd, hsub, hshape⟩
  | some (o1, o2) =>
    rw [fakeParentStep_some]
    by_cases h2 : o2 ∈ noP
    · rw [if_pos h2]
      by_cases hc : o1 ∉ noP ∧ o2 ∉ st.parented
      · rw [if_pos hc]
        refine ⟨?_, ?_, ?_⟩
        · simp only [List.map_cons, List.nodup_cons]
          refine ⟨fun hm => ?_, hnd⟩
          rcases List.mem_map.mp hm with ⟨p, hp, hp2⟩
          exact hc.2 (hp2 ▸ hsub p hp)
        · intro p hp
          rcases List.mem_cons.mp hp with h1 | h1
          · subst h1; exact List.mem_cons_self _ _
          · exact List.mem_cons.mpr (Or.inr (hsub p h1))
        · intro p hp
          rcases List.mem_cons.mp hp with h1 | h1
          · subst h1; exact ⟨h2, hc.1⟩
          · exact hshape p h1
      · rw [if_neg hc]; exact ⟨hnd, hsub, hshape⟩
    · rw [if_neg h2]
      by_cases h1 : o1 ∈ noP
      · rw [if_pos h1]
        by_cases hc : o1 ∉ st.parented
        · rw [if_pos hc]
          refine ⟨?_, ?_, ?_⟩
          · simp only [List.map_cons, List.nodup_cons]
            refine ⟨fun hm => ?_, hnd⟩
            rcases List.mem_map.mp hm with ⟨p, hp, hp2⟩
            exact hc (hp2 ▸ hsub p hp)
          · intro p hp
            rcases List.mem_cons.mp hp with hh | hh
            · subst hh; exact List.mem_cons_self _ _
            · exact List.mem_cons.mpr (Or.inr (hsub p hh))
          · intro p hp
            rcases List.mem_cons.mp hp with hh | hh
            · subst hh; exact ⟨h1, h2⟩
            · exact hshape p hh
        · rw [if_neg hc]; exact ⟨hnd, hsub, hshape⟩
      · rw [if_neg h1]; exact ⟨hnd, hsub, hshape⟩

/-- Counterexample for claim C8: a STATIC rigid body (`rtype` 0) whose parent
relation resolves no bone — it "lacks a bone target" yet `__preBuild`
does not mark it as an orphan, because the `no_parents` append sits
inside the DYNAMIC / DYNAMIC_BONE branch. -/
theorem preBuild_orphan_counterexample :
    ¬((PreObj.mk 0 0 false "").hasArm = true ∧ (PreObj.mk 0 0 false "").subtarget ≠ "") ∧
    PreObj.mk 0 0 false "" ∉ noParents [PreObj.mk 0 0 false ""] := by
  decide

/-- Claim C8, amended: The resolver marks exactly the DYNAMIC /
DYNAMIC_BONE bodies lacking a bone target as orphans; a joint pairing a
non-orphan `o1` with an unclaimed orphan `o2` (either endpoint order)
registers the orphan under the non-orphan anchor and claims it, a joint
whose orphan endpoint is already claimed changes nothing (first joint
wins, no reassignment), and over any whole run each orphan ends up a
fake-child of at most one anchor, every recorded child being an orphan
and every anchor a non-orphan. -/
theorem preBuild_fake_parent_resolver (objs : List PreObj) (noP : List ℕ)
    (joints : List (Option (ℕ × ℕ))) :
    (∀ o : PreObj, o ∈ noParents objs ↔
      o ∈ objs ∧ (o.rtype = 1 ∨ o.rtype = 2) ∧ ¬(o.hasArm = true ∧ o.subtarget ≠ "")) ∧
    (∀ (st : FakeParentState) (o1 o2 : ℕ), o1 ∉ noP → o2 ∈ noP → o2 ∉ st.parented →
      fakeParentStep noP st (some (o1, o2)) = ⟨(o1, o2) :: st.fmap, o2 :: st.parented⟩) ∧
    (∀ (st : FakeParentState) (o1 o2 : ℕ), o2 ∈ noP → o2 ∈ st.parented →
      fakeParentStep noP st (some (o1, o2)) = st) ∧
    (∀ (st : FakeParentState) (o1 o2 : ℕ), o1 ∈ noP → o2 ∉ noP → o1 ∉ st.parented →
      fakeParentStep noP st (some (o1, o2)) = ⟨(o2, o1) :: st.fmap, o1 :: st.parented⟩) ∧
    (∀ (st : FakeParentState) (o1 o2 : ℕ), o1 ∈ noP → o2 ∉ noP → o1 ∈ st.parented →
      fakeParentStep noP st (some (o1, o2)) = st) ∧
    ((fakeParentMap noP joints).fmap.map Prod.snd).Nodup ∧
    (∀ p : ℕ × ℕ, p ∈ (fakeParentMap noP joints).fmap → p.2 ∈ noP ∧ p.1 ∉ noP) := by
  have hrun : FPInv noP (fakeParentMap noP joints) := by
    unfold fakeParentMap
    exact foldl_preserve (FPInv noP) _ (fun st j hp => fakeParentStep_invariant noP st j hp)
      joints _ ⟨List.nodup_nil, fun p hp => absurd hp (List.not_mem_nil p),
        fun p hp => absurd hp (List.not_mem_nil p)⟩
  refine ⟨?_, ?_, ?_, ?_, ?_, hrun.1, hrun.2.2⟩
  · intro o
    simp only [noParents, List.mem_filter, isNoParent, Bool.and_eq_true, Bool.or_eq_true,
      decide_eq_true_eq, Bool.not_eq_true']
    constructor
    · rintro ⟨hmem, hor, hand⟩
      refine ⟨hmem, hor, fun hc => ?_⟩
      rw [hc.1] at hand
      simp only [Bool.true_and, decide_eq_false_iff_not, Decidable.not_not] at hand
      exact hc.2 hand
    · rintro ⟨hmem, hor, hand⟩
      refine ⟨hmem, hor, ?_⟩
      by_cases ha : o.hasArm = true
      · have hsub : o.subtarget = "" := by
          by_contra hs
          exact hand ⟨ha, hs⟩
        rw [ha, hsub]
        simp
      · rw [Bool.not_eq_true] at ha
        rw [ha]
        simp
  · intro st o1 o2 h1 h2 h3
    rw [fakeParentStep_some, if_pos h2, if_pos ⟨h1, h3⟩]
  · intro st o1 o2 h2 hp
    rw [fakeParentStep_some, if_pos h2, if_neg (by simp [hp])]
  · intro st o1 o2 h1 h2 h3
    rw [fakeParentStep_some, if_neg h2, if_pos h1, if_pos h3]
  · intro st o1 o2 h1 h2 hp
    rw [fakeParentStep_some, if_neg h2, if_pos h1, if_neg (by simp [hp])]

/-- Witness for claim C8, amended: one orphan (id 1) joined to a non-orphan anchor
(id 2) is registered and claimed. -/
theorem preBuild_fake_parent_resolver_witness :
    ((2 : ℕ) ∉ [1] ∧ (1 : ℕ) ∈ [(1 : ℕ)] ∧
      (1 : ℕ) ∉ (FakeParentState.mk [] []).parented) ∧
    fakeParentStep [1] ⟨[], []⟩ (some (2, 1)) = ⟨[(2, 1)], [1]⟩ :=
  ⟨⟨by decide, by decide, by decide⟩,
    (preBuild_fake_parent_resolver [] [1] []).2.1 ⟨[], []⟩ 2 1
      (by decide) (by decide) (by decide)⟩

end MMDModel
